import Mathlib

/-!
Verification of the telegram-bot signal pipeline.

Shallow embedding of the Python sources under `backend/`:
numeric prices are modelled as exact rationals (`Rat`), Python `None`
as `Option.none`, Python dictionaries as Lean structures whose fields
are `Option`-valued when the corresponding key may be absent, and
Python truthiness (`if x:`) as explicit `truthy` predicates.
Broker / network behaviour is passed in as explicit oracle data so
that every embedded operation is a pure, executable function.
-/

namespace TGBot

/-- Python truthiness for an optional number: `None` and `0` are falsy. -/
def truthyQ (x : Option ℚ) : Bool :=
  match x with
  | none => false
  | some v => v ≠ 0

/-- Python truthiness for an optional string: `None` and `""` are falsy. -/
def truthyS (x : Option String) : Bool :=
  match x with
  | none => false
  | some s => s ≠ ""

/-- Python `x or d` for an optional number (used as `entry_price or 0`). -/
def pyOr (x : Option ℚ) (d : ℚ) : ℚ :=
  if truthyQ x then x.getD d else d

/-- Round-half-even of a rational to an integer (Python `round` on a one-step
representable value). -/
def roundHalfEven (q : ℚ) : ℤ :=
  let f := ⌊q⌋
  let r := q - f
  if r < 1/2 then f
  else if r > 1/2 then f + 1
  else if f % 2 = 0 then f else f + 1

/-- Python `round(x, 2)`. -/
def round2 (q : ℚ) : ℚ := (roundHalfEven (q * 100) : ℚ) / 100

/-! ## Execution states (`ExecutionState` enum, execution_state_manager.py) -/

/-- The `ExecutionState` string enum. -/
inductive ExecState where
  | pending
  | pendingApproval
  | validated
  | executing
  | executed
  | failed
  | cancelled
  | closed
deriving DecidableEq, Repr

/-- The `.value` of each enum member. -/
def ExecState.value : ExecState → String
  | .pending => "pending"
  | .pendingApproval => "pending_approval"
  | .validated => "validated"
  | .executing => "executing"
  | .executed => "executed"
  | .failed => "failed"
  | .cancelled => "cancelled"
  | .closed => "closed"

/-! ## Parsed signal record (the dict handed to the execution engine) -/

/-- The parsed-signal dictionary as consumed by `SignalExecutor`
(`symbol`, `signal_type`, prices, `take_profits`, `entry_range`,
`confidence_score`). -/
structure ParsedSignal where
  symbol : Option String := none
  signal_type : Option String := none
  entry_price : Option ℚ := none
  entry_range : List ℚ := []
  stop_loss : Option ℚ := none
  take_profit : Option ℚ := none
  take_profits : List ℚ := []
  confidence_score : ℚ := 0
deriving Repr

/-- `SignalExecutor._validate_signal` (execution_state_manager.py:379-414).
Checks symbol, signal_type, the confidence threshold, and — when entry,
SL and TP are all (truthily) present — the buy/sell price-orientation
rule.  The orientation-specific reason strings are only logged, never
returned. -/
def validateSignal (p : ParsedSignal) : Bool :=
  if ¬ truthyS p.symbol then false
  else if ¬ truthyS p.signal_type then false
  else if p.confidence_score < 1/2 then false
  else
    match truthyQ p.entry_price, truthyQ p.stop_loss, truthyQ p.take_profit with
    | true, true, true =>
      let entry := p.entry_price.getD 0
      let sl := p.stop_loss.getD 0
      let tp := p.take_profit.getD 0
      if p.signal_type = some "buy" then
        decide (sl < entry ∧ entry < tp)
      else if p.signal_type = some "sell" then
        decide (tp < entry ∧ entry < sl)
      else true
    | _, _, _ => true

/-! ## Signal status update (`_update_signal_status`, lines 586-621) -/

/-- The "resolved" (terminal) states listed in `_update_signal_status`. -/
def resolvedStates : List ExecState :=
  [ExecState.cancelled, ExecState.failed, ExecState.executed, ExecState.closed]

/-- `SignalExecutor._update_signal_status`: given the signal's current
status and the states of all of its executions, compute the new signal
status.  With no executions, or while any execution is unresolved, the
status is unchanged; once all are resolved the signal becomes
`rejected` when every execution was cancelled and `processed`
otherwise. -/
def updateSignalStatus (prior : String) (sts : List ExecState) : String :=
  if sts = [] then prior
  else if sts.all (fun s => s ∈ resolvedStates) then
    if sts.all (fun s => s = ExecState.cancelled) then "rejected" else "processed"
  else prior

/-! ## Broker adapter (mt5_executor.py) -/

/-- The dict returned by `MT5Executor.get_current_price`. -/
structure PriceInfo where
  bid : ℚ
  ask : ℚ
  point : ℚ
  digits : ℕ
  spread : ℚ := 0
deriving Repr

/-- `mt5.symbol_info(symbol)` fields used by `execute_market_order`. -/
structure SymbolInfo where
  ask : ℚ
  bid : ℚ
  filling_mode : ℕ := 0
deriving Repr

/-- The result object returned by `mt5.order_send`. -/
structure MT5SendResult where
  retcode : ℤ
  order : ℕ
  comment : String := ""
deriving Repr

/-- `mt5.TRADE_RETCODE_DONE`. -/
def TRADE_RETCODE_DONE : ℤ := 10009

/-- The dict returned by `execute_market_order` / `execute_limit_order`;
absent keys are `none` (so `dict.get` is field access). A successful
market-order dict carries `entry_price`; a successful limit-order dict
carries `price` but no `entry_price` key. -/
structure OrderDict where
  success : Bool
  ticket : Option ℕ := none
  order_id : Option String := none
  entry_price : Option ℚ := none
  price : Option ℚ := none
  error : Option String := none
  retcode : Option ℤ := none
deriving Repr

/-- ASCII `str.lower()`. -/
def pyLower (s : String) : String := String.mk (s.data.map Char.toLower)

/-- `MT5Executor.execute_market_order` (mt5_executor.py:63-161), with the
terminal's responses (`symbol_info`, `order_send`) passed as oracle
inputs.  The success dict records `ticket = result.order` and
`entry_price = current_price` (ask for buys, bid for sells). -/
def executeMarketOrder (connected : Bool) (side : String)
    (symbolInfo : Option SymbolInfo) (sendResult : Option MT5SendResult) : OrderDict :=
  if ¬ connected then
    { success := false, error := some "Not connected to MT5" }
  else if pyLower side ≠ "buy" ∧ pyLower side ≠ "sell" then
    { success := false, error := some "Invalid side (must be 'buy' or 'sell')" }
  else
    match symbolInfo with
    | none => { success := false, error := some "Symbol not found" }
    | some info =>
      match sendResult with
      | none => { success := false, error := some "Order send failed (result is None)" }
      | some r =>
        if r.retcode ≠ TRADE_RETCODE_DONE then
          { success := false
            error := some (if r.comment ≠ "" then r.comment else "Error code " ++ toString r.retcode)
            retcode := some r.retcode }
        else
          { success := true
            ticket := some r.order
            order_id := some (toString r.order)
            entry_price := some (if pyLower side = "buy" then info.ask else info.bid) }

/-- `MT5Executor.execute_limit_order` (mt5_executor.py:163-242).  Note the
success dict has keys `ticket`, `order_id`, `volume`, `price`,
`placed_at` — and no `entry_price` key. -/
def executeLimitOrder (connected : Bool) (side : String) (price : ℚ)
    (sendResult : Option MT5SendResult) : OrderDict :=
  if ¬ connected then
    { success := false, error := some "Not connected to MT5" }
  else if pyLower side ≠ "buy" ∧ pyLower side ≠ "sell" then
    { success := false, error := some "Invalid side" }
  else
    match sendResult with
    | none => { success := false, error := some "Limit order failed (result is None)" }
    | some r =>
      if r.retcode ≠ TRADE_RETCODE_DONE then
        { success := false
          error := some (if r.comment ≠ "" then r.comment else "Error code " ++ toString r.retcode)
          retcode := some r.retcode }
      else
        { success := true
          ticket := some r.order
          order_id := some (toString r.order)
          price := some price }

/-! ## Trade executions (`TradeExecution` rows) -/

/-- The `TradeExecution` database row (fields the engine and synchronizer
touch). -/
structure TradeExecution where
  status : ExecState
  symbol : Option String := none
  side : Option String := none
  volume : ℚ := 0
  entry_price : Option ℚ := none
  stop_loss : Option ℚ := none
  take_profit : Option ℚ := none
  ticket_number : Option ℕ := none
  order_id : Option String := none
  actual_entry_price : Option ℚ := none
  profit_loss : Option ℚ := none
  close_price : Option ℚ := none
  close_time : Option ℕ := none
  execution_error : Option String := none
deriving Repr, DecidableEq

/-- The `UserPreferences` row fields used by the engine (column
defaults from models.py:181-185: manual_approval True, risk_per_trade
1.0, max_slippage 5.0, use_limit_orders True). -/
structure UserPrefs where
  manual_approval : Bool := true
  risk_per_trade : Option ℚ := some 1
  max_slippage : ℚ := 5
  use_limit_orders : Bool := true
deriving Repr

/-- Observable step of `_process_single_execution`: websocket broadcasts
and broker order calls, in chronological order. -/
inductive Ev where
  | wsExecuting (symbol : Option String)
  | wsFallingBack (entry : ℚ)
  | wsExecuted (ticket : Option ℕ)
  | wsError (msg : String)
  | callMarket (symbol side : Option String) (volume : ℚ) (sl tp : Option ℚ)
  | callLimit (symbol side : Option String) (price volume : ℚ) (sl tp : Option ℚ)
deriving DecidableEq, Repr

/-- Is the event a broker order call? -/
def Ev.isBrokerCall : Ev → Bool
  | .callMarket _ _ _ _ _ => true
  | .callLimit _ _ _ _ _ _ => true
  | _ => false

/-- Is the event a limit-order call? -/
def Ev.isLimitCall : Ev → Bool
  | .callLimit _ _ _ _ _ _ => true
  | _ => false

/-- Is the event a market-order call? -/
def Ev.isMarketCall : Ev → Bool
  | .callMarket _ _ _ _ _ => true
  | _ => false

/-- Environment of one `_process_single_execution` run: credential lookup,
connection outcome, quote, and the terminal's responses to the (at most
one) market `order_send` and (at most one) limit `order_send`. -/
structure BrokerEnv where
  mt5_password : Option String := none
  connectOk : Bool := false
  priceInfo : Option PriceInfo := none
  symbolInfo : Option SymbolInfo := none
  marketSend : Option MT5SendResult := none
  limitSend : Option MT5SendResult := none
deriving Repr

/-- `float(x) if x else None` used for SL/TP order arguments. -/
def optArg (x : Option ℚ) : Option ℚ := if truthyQ x then x else none

/-- The entry-pricing decision of `_process_single_execution`
(execution_state_manager.py:227-270): returns `(use_limit,
execution_price)`.  With an entry range present, a buy uses market iff
`ask ≤ high` (else limit at `high`) and a sell uses market iff
`bid ≥ low` (else limit at `low`); otherwise the slippage-based limit
preference applies. -/
def decideOrder (ex : TradeExecution) (p : ParsedSignal) (prefs : Option UserPrefs)
    (priceInfo : Option PriceInfo) : Bool × ℚ :=
  let execPrice := pyOr ex.entry_price 0
  match priceInfo with
  | none => (false, execPrice)
  | some pi =>
    let current := if ex.side = some "buy" then pi.ask else pi.bid
    if p.entry_range ≠ [] ∧ p.entry_range.length = 2 then
      let low := p.entry_range.headD 0
      let high := (p.entry_range.drop 1).headD 0
      if ex.side = some "buy" then
        if current ≤ high then (false, execPrice) else (true, high)
      else
        if current ≥ low then (false, execPrice) else (true, low)
    else
      match prefs with
      | some up =>
        if up.use_limit_orders ∧ truthyQ ex.entry_price then
          let target := ex.entry_price.getD 0
          let priceDiff := |current - target|
          let pipsToPrice :=
            if pi.digits = 3 ∨ pi.digits = 5 then up.max_slippage * 10 * pi.point
            else up.max_slippage * pi.point
          if priceDiff > pipsToPrice then (true, target) else (false, execPrice)
        else (false, execPrice)
      | none => (false, execPrice)

/-- Result of one `_process_single_execution` run: the final execution
row, the chronological event log, and the `success` flag of the
returned dict. -/
structure ProcResult where
  ex : TradeExecution
  log : List Ev
  success : Bool
deriving Repr

/-- The `except` path: transition to FAILED, record `str(e)`, broadcast
an `error` event. -/
def procFail (ex : TradeExecution) (log : List Ev) (msg : String) : ProcResult :=
  ⟨{ ex with status := .failed, execution_error := some msg }, log ++ [Ev.wsError msg], false⟩

/-- Bookkeeping after the chosen order call: on success transition to
EXECUTED, persist `ticket = result["ticket"]`,
`actual_entry_price = result.get("entry_price")` and broadcast
`executed`; on failure raise with the result's error string. -/
def procFinish (ex : TradeExecution) (log : List Ev) (res : OrderDict) : ProcResult :=
  if res.success then
    let ex' := { ex with
      status := .executed
      ticket_number := res.ticket
      order_id := some (res.order_id.getD "None")
      actual_entry_price := res.entry_price }
    ⟨ex', log ++ [Ev.wsExecuted ex'.ticket_number], true⟩
  else
    procFail ex log (res.error.getD "Order execution failed")

/-- `SignalExecutor._process_single_execution`
(execution_state_manager.py:181-377): validate, connect, decide
market/limit, place the order (with the market-to-limit fallback), and
record the outcome. -/
def processSingleExecution (ex0 : TradeExecution) (p : ParsedSignal)
    (prefs : Option UserPrefs) (env : BrokerEnv) : ProcResult :=
  if ¬ validateSignal p then
    ⟨{ ex0 with status := .failed, execution_error := some "Signal validation failed" },
      [], false⟩
  else
    let ex1 := { ex0 with status := .validated }
    if ¬ truthyS env.mt5_password then
      procFail ex1 [] "MT5 password not configured"
    else if ¬ env.connectOk then
      procFail ex1 [] "Failed to connect to MT5"
    else
      let dec := decideOrder ex1 p prefs env.priceInfo
      let ex2 := { ex1 with status := .executing }
      let log0 := [Ev.wsExecuting ex2.symbol]
      let sideStr := ex2.side.getD ""
      if dec.1 then
        let res := executeLimitOrder env.connectOk sideStr dec.2 env.limitSend
        procFinish ex2
          (log0 ++ [Ev.callLimit ex2.symbol ex2.side dec.2 ex2.volume
            (optArg ex2.stop_loss) (optArg ex2.take_profit)]) res
      else
        let resM := executeMarketOrder env.connectOk sideStr env.symbolInfo env.marketSend
        let logM := log0 ++ [Ev.callMarket ex2.symbol ex2.side ex2.volume
          (optArg ex2.stop_loss) (optArg ex2.take_profit)]
        if ¬ resM.success ∧ truthyQ ex2.entry_price then
          let entry := ex2.entry_price.getD 0
          let logF := logM ++ [Ev.wsFallingBack entry]
          let resL := executeLimitOrder env.connectOk sideStr entry env.limitSend
          procFinish ex2
            (logF ++ [Ev.callLimit ex2.symbol ex2.side entry ex2.volume
              (optArg ex2.stop_loss) (optArg ex2.take_profit)]) resL
        else
          procFinish ex2 logM resM

/-! ## Signal fan-out (`execute_signal`, lines 69-171) -/

/-- The TP list of `execute_signal`: `take_profits` if non-empty, else
`[take_profit]` if (truthily) present, else `[None]`. -/
def computeTPs (p : ParsedSignal) : List (Option ℚ) :=
  let tps := p.take_profits.map some
  let tps := if tps = [] ∧ truthyQ p.take_profit then [p.take_profit] else tps
  if tps = [] then [none] else tps

/-- `total_volume`: `risk_per_trade` when preferences exist and it is
truthy, else the 1.0 default. -/
def totalVolume (prefs : Option UserPrefs) : ℚ :=
  match prefs with
  | some up => if truthyQ up.risk_per_trade then up.risk_per_trade.getD 0 else 1
  | none => 1

/-- `pos_volume`: `round(total_volume / len(tps), 2)` clamped below at
0.01. -/
def posVolume (prefs : Option UserPrefs) (p : ParsedSignal) : ℚ :=
  let v := round2 (totalVolume prefs / (computeTPs p).length)
  if v < 1/100 then 1/100 else v

/-- The manual-approval gate condition of `execute_signal` (line 84,
fresh invocation): `user_prefs and user_prefs.manual_approval`
(preferences row present and its flag truthy). -/
def manualApprovalGate (prefs : Option UserPrefs) : Bool :=
  match prefs with
  | some up => up.manual_approval
  | none => false

/-- One `TradeExecution` row as built by `execute_signal` for a TP-list
element. -/
def mkExecutionRow (p : ParsedSignal) (prefs : Option UserPrefs) (st : ExecState)
    (tp : Option ℚ) : TradeExecution :=
  { status := st
    symbol := p.symbol
    side := p.signal_type
    volume := posVolume prefs p
    entry_price := p.entry_price
    stop_loss := p.stop_loss
    take_profit := tp }

/-- The executions created by one fresh `execute_signal` invocation
(execution_state_manager.py:69-171, `execution_id = None`): on the
manual-approval path a signal failing `_validate_signal` creates
**nothing** (lines 84-87) and otherwise one PENDING_APPROVAL row per
TP-list element; on the auto path one PENDING row per element is
created unconditionally (validation there runs per execution, after
creation). -/
def createdExecutions (p : ParsedSignal) (prefs : Option UserPrefs) :
    List TradeExecution :=
  if manualApprovalGate prefs then
    if ¬ validateSignal p then []
    else (computeTPs p).map (mkExecutionRow p prefs ExecState.pendingApproval)
  else (computeTPs p).map (mkExecutionRow p prefs ExecState.pending)

/-! ## Position synchronizer (sync_manager.py) -/

/-- A raw deal record from `mt5.history_deals_get(position=ticket)`. -/
structure Deal where
  entry : ℕ
  price : ℚ
  profit : ℚ
  time : ℕ
deriving Repr, DecidableEq

/-- `mt5.DEAL_ENTRY_OUT`. -/
def DEAL_ENTRY_OUT : ℕ := 1

/-- The dict returned by `MT5Executor.get_history_deals`. -/
structure DealDict where
  price : ℚ
  profit : ℚ
  time : ℕ
deriving Repr, DecidableEq

/-- `MT5Executor.get_history_deals` (mt5_executor.py:424-460): `None`
when there are no deals; otherwise the last `DEAL_ENTRY_OUT` deal
(searching the list in reverse), falling back to the last deal. -/
def getHistoryDeals (deals : List Deal) : Option DealDict :=
  match deals with
  | [] => none
  | d0 :: rest =>
    let closing :=
      match deals.reverse.find? (fun d => d.entry = DEAL_ENTRY_OUT) with
      | some d => d
      | none => (d0 :: rest).getLast (List.cons_ne_nil _ _)
    some ⟨closing.price, closing.profit, closing.time⟩

/-- A broker open-position entry as used by `_sync_broker_positions`. -/
structure BrokerPosition where
  ticket : ℕ
  profit : ℚ
  price_current : ℚ
deriving Repr, DecidableEq

/-- Websocket events emitted by the synchronizer. -/
inductive SyncEv where
  | positionUpdate (ticket : ℕ) (profit : ℚ) (price_current : ℚ)
  | positionClosed (ticket : ℕ) (profit : ℚ) (close_price : ℚ)
deriving DecidableEq, Repr

/-- Python truthiness of an optional ticket number (`if not
ex.ticket_number: continue`). -/
def truthyN (x : Option ℕ) : Bool :=
  match x with
  | none => false
  | some n => n ≠ 0

/-- The per-execution body of `_sync_broker_positions`
(sync_manager.py:108-146): skip falsy tickets; refresh P&L for
still-open tickets; for absent tickets close from the historical deal
when one exists, else leave unchanged.  `mt5_tickets` is a dict built
from the positions list, so on duplicate tickets the last entry wins. -/
def syncStep (openPos : List BrokerPosition) (history : ℕ → List Deal)
    (ex : TradeExecution) : TradeExecution × List SyncEv :=
  if ¬ truthyN ex.ticket_number then (ex, [])
  else
    let t := ex.ticket_number.getD 0
    match openPos.reverse.find? (fun bp => bp.ticket = t) with
    | some bp =>
      ({ ex with profit_loss := some bp.profit },
        [.positionUpdate t bp.profit bp.price_current])
    | none =>
      match getHistoryDeals (history t) with
      | some deal =>
        ({ ex with
            status := .closed
            profit_loss := some deal.profit
            close_price := some deal.price
            close_time := some deal.time },
          [.positionClosed t deal.profit deal.price])
      | none => (ex, [])

/-- One pass of `PositionSyncManager.sync_all_active_positions` over a
database of executions with a single broker group: only rows in state
EXECUTED are selected (sync_manager.py:62-64), and each is processed by
`syncStep` provided credentials were found and the terminal connection
succeeded (`_sync_broker_positions` returns early otherwise). -/
def syncAllActivePositions (credsOk connectOk : Bool) (openPos : List BrokerPosition)
    (history : ℕ → List Deal) (db : List TradeExecution) :
    List (TradeExecution × List SyncEv) :=
  db.map (fun ex =>
    if ex.status = ExecState.executed ∧ credsOk ∧ connectOk then
      syncStep openPos history ex
    else (ex, []))

/-! ## Notification hub (websockets.py `ConnectionManager`) -/

/-- Outcome of one `send_text` attempt in `broadcast`: delivered, or the
exception was logged. -/
inductive WSEv where
  | sent (session : ℕ)
  | errorLogged (session : ℕ)
deriving DecidableEq, Repr

/-- `active_connections`: user id ↦ list of sessions. -/
abbrev WSRegistry : Type := List (ℕ × List ℕ)

/-- Dict lookup `active_connections[user_id]`. -/
def lookupConns (reg : WSRegistry) (u : ℕ) : Option (List ℕ) :=
  (List.find? (fun e => e.1 = u) reg).map (fun e => e.2)

/-- One `send_text` attempt inside `broadcast`: delivery on success, a
logged error otherwise. -/
def wsAttempt (sendOk : ℕ → Bool) (c : ℕ) : WSEv :=
  if sendOk c then WSEv.sent c else WSEv.errorLogged c

/-- `ConnectionManager.broadcast` (websockets.py:38-57): the sequence of
send outcomes.  With a (truthy) target user, each of that user's
sessions is attempted once; a raised send error is logged and the loop
continues. -/
def broadcastEvents (reg : WSRegistry) (target : Option ℕ) (sendOk : ℕ → Bool) :
    List WSEv :=
  match target with
  | some u =>
    match lookupConns reg u with
    | some cs => cs.map (wsAttempt sendOk)
    | none => []
  | none => List.foldr (fun e acc => e.2.map (wsAttempt sendOk) ++ acc) [] reg

/-- The registry after `broadcast`: the method never mutates
`active_connections` (no removal on send errors). -/
def broadcastRegistryAfter (reg : WSRegistry) (_target : Option ℕ)
    (_sendOk : ℕ → Bool) : WSRegistry := reg

/-- Registry well-formedness: dict keys are unique and no session is
registered twice under one user. -/
def WSWellFormed (reg : WSRegistry) : Prop :=
  (List.map Prod.fst reg).Nodup ∧ ∀ e ∈ reg, e.2.Nodup

/-! ## Confirm endpoint (routes.py `confirm_execution`, lines 628-699) -/

/-- `TradeModifyRequest` body: optional SL/TP overrides. -/
structure TradeModifyRequest where
  stop_loss : Option ℚ := none
  take_profit : Option ℚ := none
deriving Repr

/-- The SL/TP overrides applied by `confirm_execution` before resuming
(`if request.stop_loss is not None: ...`). -/
def confirmOverride (e : TradeExecution) (req : TradeModifyRequest) : TradeExecution :=
  let e1 :=
    match req.stop_loss with
    | some v => { e with stop_loss := some v }
    | none => e
  match req.take_profit with
  | some v => { e1 with take_profit := some v }
  | none => e1

/-- The signal-like dict built by `confirm_execution` for the resumed
engine call: the stored symbol/side/prices with
`confidence_score = 1.0`. -/
def confirmSignalData (e : TradeExecution) : ParsedSignal :=
  { symbol := e.symbol
    signal_type := e.side
    entry_price := e.entry_price
    stop_loss := e.stop_loss
    take_profit := e.take_profit
    confidence_score := 1 }

/-- `confirm_execution`: gated on state PENDING_APPROVAL or FAILED; on
success returns the parsed dict that is passed to `execute_signal`
together with `execution_id` (the resume path). -/
def confirmExecution (e : TradeExecution) (req : TradeModifyRequest) :
    Option ParsedSignal :=
  if e.status = ExecState.pendingApproval ∨ e.status = ExecState.failed then
    some (confirmSignalData (confirmOverride e req))
  else none

/-! ## Statement-level helpers -/

/-- First broker order call of an event log. -/
def firstBrokerCall (log : List Ev) : Option Ev := log.find? Ev.isBrokerCall

/-- Python `sub in s` substring test. -/
def containsSub (s sub : String) : Bool :=
  (List.range (s.length + 1)).any (fun i => (s.data.drop i).take sub.data.length = sub.data)

/-- The pre-trade validation failure causes enumerated by the spec:
missing symbol or side, confidence below 0.5, or — with entry, SL and
TP all present — a violated buy/sell price-orientation rule. -/
def failsPreTrade (p : ParsedSignal) : Prop :=
  truthyS p.symbol = false ∨ truthyS p.signal_type = false ∨ p.confidence_score < 1/2 ∨
  (truthyQ p.entry_price = true ∧ truthyQ p.stop_loss = true ∧ truthyQ p.take_profit = true ∧
    ((p.signal_type = some "buy" ∧
        ¬ (p.stop_loss.getD 0 < p.entry_price.getD 0 ∧ p.entry_price.getD 0 < p.take_profit.getD 0)) ∨
     (p.signal_type = some "sell" ∧
        ¬ (p.take_profit.getD 0 < p.entry_price.getD 0 ∧ p.entry_price.getD 0 < p.stop_loss.getD 0))))

/-! ## A small backtracking regex engine (Python `re` fragment)

The classifier and extractor in signal_parser.py are driven by `re`
patterns.  This engine reproduces the fragment of Python `re` semantics
those patterns use: leftmost search, left-to-right alternation
priority, greedy `*`/`+`/`?`/`{m,n}` with backtracking, character
classes, `\d`/`\s`/`\w`, word boundaries, `.`, and capturing groups
(with the last repetition winning).  Matching is fuelled; the fuel
bounds only the recursion depth and is ample for the inputs used. -/

/-- Regex abstract syntax. -/
inductive RE where
  | eps
  | lit (c : Char)
  | anyOf (cs : List Char)
  | rng (lo hi : Char)
  | digit
  | space
  | wordc
  | dot
  | wb
  | seq (a b : RE)
  | alt (a b : RE)
  | star (a : RE)
  | opt (a : RE)
  | rep (a : RE) (lo hi : ℕ)
  | grp (idx : ℕ) (a : RE)
deriving Repr

/-- Python `\s` (ASCII fragment). -/
def isSpaceC (c : Char) : Bool :=
  c = ' ' ∨ c = '\t' ∨ c = '\n' ∨ c = '\r' ∨ c = '\x0b' ∨ c = '\x0c'

/-- Python `\w` (ASCII fragment). -/
def isWordC (c : Char) : Bool :=
  c.isAlpha ∨ c.isDigit ∨ c = '_'

/-- Matcher state: the character before the current position (for
`\b`), the remaining input, and the captures recorded so far (most
recent first). -/
structure MSt where
  prev : Option Char
  rest : List Char
  caps : List (ℕ × List Char)
deriving Repr

/-- CPS backtracking matcher.  `alt` tries the left branch first;
`star`/`opt`/`rep` are greedy; a starred body that stops consuming
input ends the iteration (as Python does). -/
def reMatch : ℕ → RE → MSt → (MSt → Option MSt) → Option MSt
  | 0, _, _, _ => none
  | fuel + 1, re, st, k =>
    match re with
    | .eps => k st
    | .lit c =>
      match st.rest with
      | [] => none
      | x :: xs => if x = c then k ⟨some x, xs, st.caps⟩ else none
    | .anyOf cs =>
      match st.rest with
      | [] => none
      | x :: xs => if x ∈ cs then k ⟨some x, xs, st.caps⟩ else none
    | .rng lo hi =>
      match st.rest with
      | [] => none
      | x :: xs => if lo ≤ x ∧ x ≤ hi then k ⟨some x, xs, st.caps⟩ else none
    | .digit =>
      match st.rest with
      | [] => none
      | x :: xs => if x.isDigit then k ⟨some x, xs, st.caps⟩ else none
    | .space =>
      match st.rest with
      | [] => none
      | x :: xs => if isSpaceC x then k ⟨some x, xs, st.caps⟩ else none
    | .wordc =>
      match st.rest with
      | [] => none
      | x :: xs => if isWordC x then k ⟨some x, xs, st.caps⟩ else none
    | .dot =>
      match st.rest with
      | [] => none
      | x :: xs => if x ≠ '\n' then k ⟨some x, xs, st.caps⟩ else none
    | .wb =>
      let before := match st.prev with | none => false | some c => isWordC c
      let after := match st.rest with | [] => false | x :: _ => isWordC x
      if before ≠ after then k st else none
    | .seq a b => reMatch fuel a st (fun st1 => reMatch fuel b st1 k)
    | .alt a b =>
      match reMatch fuel a st k with
      | some r => some r
      | none => reMatch fuel b st k
    | .opt a =>
      match reMatch fuel a st k with
      | some r => some r
      | none => k st
    | .star a =>
      let n := st.rest.length
      match reMatch fuel a st (fun st1 =>
          if st1.rest.length < n then reMatch fuel (.star a) st1 k else none) with
      | some r => some r
      | none => k st
    | .rep a lo hi =>
      if hi = 0 then (if lo = 0 then k st else none)
      else
        match reMatch fuel a st (fun st1 => reMatch fuel (.rep a (lo - 1) (hi - 1)) st1 k) with
        | some r => some r
        | none => if lo = 0 then k st else none
    | .grp i a =>
      let start := st.rest
      reMatch fuel a st (fun st1 =>
        k ⟨st1.prev, st1.rest, (i, start.take (start.length - st1.rest.length)) :: st1.caps⟩)

/-- Attempt a match anchored at the current position. -/
def reTry (re : RE) (prev : Option Char) (s : List Char) : Option MSt :=
  reMatch 2000 re ⟨prev, s, []⟩ some

/-- `re.search`: leftmost match; returns the suffix where the match
started and the final state. -/
def reSearchAux (re : RE) : Option Char → List Char → Option (List Char × MSt)
  | prev, s =>
    match reTry re prev s with
    | some st => some (s, st)
    | none =>
      match s with
      | [] => none
      | c :: cs => reSearchAux re (some c) cs

/-- Boolean `re.search`. -/
def reSearchB (re : RE) (s : List Char) : Bool := (reSearchAux re none s).isSome

/-- `match.group(i)`. -/
def capGet (st : MSt) (i : ℕ) : Option (List Char) :=
  (st.caps.find? (fun e => e.1 = i)).map (fun e => e.2)

/-- `re.finditer`: successive non-overlapping leftmost matches,
returning each match's consumed text and final state. -/
def reFindIter : ℕ → RE → Option Char → List Char → List (List Char × MSt)
  | 0, _, _, _ => []
  | fuel + 1, re, prev, s =>
    match reSearchAux re prev s with
    | none => []
    | some (suffix, st) =>
      let consumed := suffix.length - st.rest.length
      let matched := suffix.take consumed
      if consumed = 0 then
        match st.rest with
        | [] => [(matched, st)]
        | c :: cs => (matched, st) :: reFindIter fuel re (some c) cs
      else (matched, st) :: reFindIter fuel re st.prev st.rest

/-- `re.findall` for a pattern without capture groups: the list of
matched texts. -/
def reFindAll (re : RE) (s : List Char) : List (List Char) :=
  (reFindIter (s.length + 1) re none s).map (fun e => e.1)

/-- Concatenation of a pattern list. -/
def rcat (rs : List RE) : RE := rs.foldr RE.seq RE.eps

/-- Left-to-right alternation of a pattern list. -/
def ralt (rs : List RE) : RE :=
  match rs with
  | [] => RE.eps
  | [r] => r
  | r :: rest => RE.alt r (ralt rest)

/-- Literal string pattern. -/
def rstr (s : String) : RE := rcat (s.data.map RE.lit)

/-- Greedy `+`. -/
def rplus (r : RE) : RE := RE.seq r (RE.star r)

/-- The class `[:\s]`. -/
def colonSpace : RE := RE.alt (RE.lit ':') RE.space

/-! ## Classifier & extractor (signal_parser.py), heuristic path -/

/-- ASCII `str.upper()`. -/
def pyUpper (s : String) : String := String.mk (s.data.map Char.toUpper)

/-- Python `sub in s` on char lists. -/
def containsSubL (s sub : List Char) : Bool :=
  (List.range (s.length + 1)).any (fun i => (s.drop i).take sub.length = sub)

/-- The price token `\b\d{1,7}(?:\.\d{1,5})?\b`. -/
def pricePat : RE :=
  rcat [.wb, .rep .digit 1 7, .opt (rcat [.lit '.', .rep .digit 1 5]), .wb]

/-- Commentary patterns of `classify_message`, in order. -/
def commentaryPats : List RE :=
  [ rcat [rstr "tp", rplus .digit, .star .space, ralt [rstr "hit", rstr "✅", rstr "reached"]],
    rcat [rplus .digit, .opt (.lit '+'), .star .space, rstr "pips"],
    rcat [ralt [rstr "nfp", rstr "cpi", rstr "fomc", rstr "news"], .star .space,
      ralt [rstr "in", rstr "alert"]],
    rstr "my analysis",
    rcat [rstr "i ", ralt [rstr "hope", rstr "wish", rstr "expect"]],
    rcat [ralt [rstr "managing", rstr "manage"], .star .space, rstr "risk"],
    rstr "patience is key",
    rstr "you guys know",
    rcat [ralt [rstr "worst", rstr "best"], .star .space, rstr "positions"],
    rcat [rstr "signal", .star .space, ralt [rstr "get ready", rstr "coming"]],
    rstr "this is not financial advice" ]

/-- Modification pattern groups of `classify_message`, in dict insertion
order; within a group, patterns in list order. -/
def modificationKinds : List (String × List RE) :=
  [ ("breakeven_move",
      [ rcat [.wb, ralt [rstr "be", rstr "breakeven",
          rcat [rstr "break", .star .space, rstr "even"]], .wb],
        rcat [rstr "moving", .star .space,
          ralt [rstr "stops", rstr "sl", rcat [rstr "stop", .star .space, rstr "loss"]],
          .star .dot, .wb, .opt (rcat [rstr "to", .star .space]),
          ralt [rstr "be", rstr "breakeven"]],
        rcat [rstr "stop", .opt (.lit 's'), .star .space, ralt [rstr "from", rstr "to"],
          .star .space, .opt (rcat [rstr "top", .star .space]), rstr "be"],
        rcat [rstr "position", .opt (.lit 's'), .star .space, rstr "at", .star .space,
          rstr "be"] ]),
    ("cancellation",
      [ rcat [rstr "cancel", .opt (.lit 'l'), rstr "ing"],
        rcat [rstr "cancel", .star .space, ralt [rstr "sell", rstr "buy"], .star .space,
          ralt [rstr "limit", rstr "stop"]],
        rcat [rstr "delete", .star .space, ralt [rstr "order", rstr "pending"]] ]),
    ("partial_close",
      [ rcat [rstr "partial", .opt (rstr "ly"), .star .space, ralt [rstr "close", rstr "exit"]],
        rcat [rstr "close", .star .space, rstr "half"],
        rcat [ralt [rstr "some", rstr "few"], .star .space, rstr "position", .opt (.lit 's'),
          .star .space, rstr "closed"],
        rcat [rstr "filled", .star .space, rstr "the", .star .space, rstr "zone"] ]),
    ("stop_adjustment",
      [ rcat [ralt [rstr "adjust", rstr "move", rstr "moving", rstr "trail"], .star .space,
          ralt [rstr "stop", rstr "sl"]],
        rcat [rstr "new", .star .space, rstr "stop"] ]) ]

/-- The forex-pair fallback `\b([A-Z]{3})[/\s]?([A-Z]{3})\b`. -/
def forexPat : RE :=
  rcat [.wb, .grp 1 (.rep (.rng 'A' 'Z') 3 3), .opt (.alt (.lit '/') .space),
    .grp 2 (.rep (.rng 'A' 'Z') 3 3), .wb]

/-- The crypto fallback `\b(BTC|ETH|XRP|ADA|SOL)\b`. -/
def cryptoPat : RE :=
  rcat [.wb, .grp 1 (ralt [rstr "BTC", rstr "ETH", rstr "XRP", rstr "ADA", rstr "SOL"]), .wb]

/-- The stock fallback `\b([A-Z]{1,5})\b\s*(stock|share)` (note the
lowercase literals are searched against the uppercased text, as in the
source). -/
def stockPat : RE :=
  rcat [.wb, .grp 1 (.rep (.rng 'A' 'Z') 1 5), .wb, .star .space,
    .grp 2 (ralt [rstr "stock", rstr "share"])]

/-- `common_symbols`, in the order written in the source set literal
(Python set iteration order is unspecified; all concrete inputs used
below match exactly one element, so the order is immaterial there). -/
def commonSymbols : List String :=
  [ "EURUSD", "GBPUSD", "USDJPY", "USDCHF", "AUDUSD", "NZDUSD",
    "EURJPY", "EURGBP", "GBPJPY", "AUDNZD", "CADCHF", "AUDCAD",
    "BTC", "ETH", "XRP", "ADA", "DOT", "SOL", "AAPL", "GOOGL", "MSFT",
    "XAUUSD", "GOLD", "XAGUSD", "SILVER", "USOIL", "UKOIL", "XTIUSD", "XBRUSD",
    "US30", "NAS100", "GER30", "DE30", "DE40", "SPX500", "US500", "HK30", "JPN225" ]

/-- `symbol_map` aliases. -/
def symbolMap : List (String × String) :=
  [ ("GOLD", "XAUUSD"), ("SILVER", "XAGUSD"), ("OIL", "USOIL"), ("US30", "DJI"),
    ("NAS100", "NAS100"), ("NASDAQ", "NAS100"), ("DOW", "US30") ]

/-- `SignalParser._extract_symbol` (signal_parser.py:351-377). -/
def extractSymbol (text : String) : Option String :=
  let up := (pyUpper text).data
  match commonSymbols.find? (fun sym => containsSubL up sym.data) with
  | some sym => some (((symbolMap.find? (fun e => e.1 = sym)).map (fun e => e.2)).getD sym)
  | none =>
    match reSearchAux forexPat none up with
    | some (_, st) =>
      some (String.mk (((capGet st 1).getD []) ++ ((capGet st 2).getD [])))
    | none =>
      match reSearchAux cryptoPat none up with
      | some (_, st) => some (String.mk ((capGet st 1).getD []))
      | none =>
        match reSearchAux stockPat none up with
        | some (_, st) => some (String.mk ((capGet st 1).getD []))
        | none => none

/-- `_has_price_structure` (signal_parser.py:172-184): the loose range
pattern is searched on the raw text, the rest on the lowercased text. -/
def hasPriceStructure (text : String) : Bool :=
  let normalized := (pyLower text).data
  let rangeLoose := rcat [rplus .digit, .opt (.lit '.'), .star .digit, .star .space,
    .anyOf ['-', '–', '—'], .star .space, rplus .digit, .opt (.lit '.'), .star .digit]
  let entryLoose := rcat [ralt [rstr "entry", rstr "buy", rstr "sell"], .star .space,
    .opt (.anyOf ['@', ':', 'a', 't']), .star .space, rplus .digit, .opt (.lit '.'),
    rplus .digit]
  let slLoose := rcat [ralt [rstr "sl", rcat [rstr "stop", .star .space, rstr "loss"],
    rstr "stoploss"], .star .space, .opt (.anyOf ['@', ':', 'a', 't']), .star .space,
    rplus .digit, .opt (.lit '.'), rplus .digit]
  let tpLoose := rcat [ralt [rcat [rstr "tp", .star .digit],
    rcat [rstr "take", .star .space, rstr "profit"], rstr "target"], .star .space,
    .opt (.anyOf ['@', ':', 'a', 't']), .star .space, rplus .digit, .opt (.lit '.'),
    rplus .digit]
  let hasEntry := reSearchB rangeLoose text.data || reSearchB entryLoose normalized
  let hasSl := reSearchB slLoose normalized
  let hasTp := reSearchB tpLoose normalized
  hasEntry && (hasSl || hasTp)

/-- `classify_message` (signal_parser.py:91-170): commentary patterns
first, then modification kinds, then the actionable-signal test
(resolvable symbol + price structure), defaulting to commentary. -/
def classifyMessage (text : String) : String × Option String :=
  let normalized := (pyLower text).data
  if commentaryPats.any (fun p => reSearchB p normalized) then
    ("commentary", none)
  else
    match modificationKinds.find? (fun kp => kp.2.any (fun p => reSearchB p normalized)) with
    | some kp => ("modification", some kp.1)
    | none =>
      if (extractSymbol text).isSome ∧ hasPriceStructure text then
        ("actionable_signal", none)
      else
        ("commentary", none)

/-- Digit run to a natural number. -/
def digitsToNat (cs : List Char) : ℕ :=
  cs.foldl (fun a c => a * 10 + (c.toNat - 48)) 0

/-- Python `float` on a matched price token, as an exact rational. -/
def parsePriceQ (cs : List Char) : ℚ :=
  let intPart := cs.takeWhile (fun c => c ≠ '.')
  let rest := cs.dropWhile (fun c => c ≠ '.')
  match rest with
  | [] => (digitsToNat intPart : ℚ)
  | _ :: frac => (digitsToNat intPart : ℚ) + (digitsToNat frac : ℚ) / ((10 : ℚ) ^ frac.length)

/-- The price fields accumulated by `_extract_prices`. -/
structure Prices where
  entry : Option ℚ := none
  entry_range : List ℚ := []
  stop_loss : Option ℚ := none
  take_profit : Option ℚ := none
  take_profits : List ℚ := []
deriving Repr

/-- The entry range pattern of `_extract_prices`. -/
def rangePat : RE :=
  rcat [ .opt (ralt [rstr "entry", rstr "enter", rstr "entrada", rstr "@", rstr "at",
      rstr "price", rstr "buy", rstr "sell"]),
    .star colonSpace, .grp 1 pricePat, .star .space,
    ralt [rstr "-", rstr "–", rstr "—", rstr "to", rstr "/"], .star .space,
    .grp 2 pricePat ]

/-- The two single-entry patterns of `_extract_prices`, in order. -/
def entryPats : List RE :=
  [ rcat [ralt [rstr "entry", rstr "enter", rstr "entrada", rstr "open", rstr "initial",
      rstr "@", rstr "at", rstr "price"], .star colonSpace, .grp 1 pricePat],
    rcat [ralt [rstr "buy", rstr "sell"], rplus .space,
      .opt (ralt [rstr "gold", rstr "silver", rstr "oil", rstr "us30", rstr "nas100",
        rstr "eurusd", rstr "gbpusd", rplus (.alt .wordc (.lit '/'))]),
      .star .space, .grp 1 pricePat] ]

/-- The stop-loss pattern of `_extract_prices`. -/
def slPat : RE :=
  rcat [ralt [rstr "sl", rstr "stop loss", rstr "stoploss", rstr "stop", rstr "risk"],
    .star colonSpace, .grp 1 pricePat]

/-- The TP-label pattern collected by `finditer`. -/
def tpLabelPat : RE :=
  rcat [ralt [rstr "tp", rstr "take profit", rstr "target"], .star .space,
    .opt (rplus .digit), .star .space, .opt (ralt [rstr "open", rstr "at", rstr "target"]),
    .star colonSpace, .grp 1 pricePat]

/-- A price list `P(\s*[/|]\s*P)*`. -/
def priceListPat : RE :=
  rcat [pricePat, .star (rcat [.star .space, .anyOf ['/', '|'], .star .space, pricePat])]

/-- The two TP price-list patterns, in order. -/
def listPats : List RE :=
  [ rcat [ralt [rstr "tp", rstr "take profit", rstr "target"], .opt (.lit 's'),
      .star colonSpace, .grp 1 priceListPat],
    rcat [.lit '(', .star .space, .grp 1 priceListPat, .star .space, .lit ')'] ]

/-- The single-TP fallback pattern. -/
def tpFallbackPat : RE :=
  rcat [ralt [rstr "tp", rstr "take profit", rstr "target"], .star colonSpace,
    .grp 1 pricePat]

/-- Append a value to the TP list unless already present (`val not in
take_profits`). -/
def addTP (tps : List ℚ) (v : ℚ) : List ℚ :=
  if tps.contains v then tps else tps ++ [v]

/-- `SignalParser._extract_prices` (signal_parser.py:379-513). -/
def extractPrices (text : String) : Prices :=
  let lower := (pyLower text).data
  -- 1. entry range (ratio-validated), else single entry
  let p0 : Prices := {}
  let p1 : Prices :=
    match reSearchAux rangePat none lower with
    | some (_, st) =>
      let v1 := parsePriceQ ((capGet st 1).getD [])
      let v2 := parsePriceQ ((capGet st 2).getD [])
      if 1/2 < v1 / v2 ∧ v1 / v2 < 2 then
        { p0 with entry_range := [min v1 v2, max v1 v2], entry := some (min v1 v2) }
      else p0
    | none => p0
  let p2 : Prices :=
    if ¬ truthyQ p1.entry then
      match entryPats.findSome? (fun pat =>
          (reSearchAux pat none lower).map (fun e => parsePriceQ ((capGet e.2 1).getD []))) with
      | some v => { p1 with entry := some v }
      | none => p1
    else p1
  -- 2. stop loss
  let p3 : Prices :=
    match reSearchAux slPat none lower with
    | some (_, st) => { p2 with stop_loss := some (parsePriceQ ((capGet st 1).getD [])) }
    | none => p2
  -- 3. labelled take profits (finditer), then price lists
  let tps0 := (reFindIter (lower.length + 1) tpLabelPat none lower).foldl
    (fun acc e => addTP acc (parsePriceQ ((capGet e.2 1).getD []))) p3.take_profits
  let tps1 := listPats.foldl (fun acc pat =>
    match reSearchAux pat none lower with
    | some (_, st) =>
      (reFindAll pricePat ((capGet st 1).getD [])).foldl
        (fun a cs => addTP a (parsePriceQ cs)) acc
    | none => acc) tps0
  let p4 : Prices := { p3 with take_profits := tps1 }
  let p5 : Prices :=
    match p4.take_profits with
    | v :: _ => { p4 with take_profit := some v }
    | [] => p4
  -- 4. single-TP fallback
  let p6 : Prices :=
    if ¬ truthyQ p5.take_profit then
      match reSearchAux tpFallbackPat none lower with
      | some (_, st) =>
        let v := parsePriceQ ((capGet st 1).getD [])
        { p5 with take_profit := some v, take_profits := addTP p5.take_profits v }
      | none => p5
    else p5
  -- 5. general fallback over significant unassigned numbers
  let allNumbers := (reFindAll pricePat text.data).map parsePriceQ
  let significant := allNumbers.filter (fun n =>
    if n > 10 then true
    else if truthyQ p6.entry then
      let ratio := n / p6.entry.getD 0
      1/2 < ratio ∧ ratio < 2
    else false)
  let foundValues :=
    ((([p6.entry, p6.stop_loss].filterMap id) ++ p6.entry_range) ++ p6.take_profits)
  let remaining0 := significant.filter (fun n => ¬ foundValues.contains n)
  let entryRem :
      Option ℚ × List ℚ :=
    if ¬ truthyQ p6.entry ∧ significant ≠ [] then
      let e := significant.headD 0
      (some e, if remaining0.contains e then remaining0.erase e else remaining0)
    else (p6.entry, remaining0)
  let p7 : Prices := { p6 with entry := entryRem.1 }
  let slRem : Option ℚ × List ℚ :=
    if ¬ truthyQ p7.stop_loss ∧ entryRem.2 ≠ [] then
      (some (entryRem.2.headD 0), entryRem.2.tail)
    else (p7.stop_loss, entryRem.2)
  let p8 : Prices := { p7 with stop_loss := slRem.1 }
  let p9 : Prices := { p8 with take_profits := slRem.2.foldl addTP p8.take_profits }
  if ¬ truthyQ p9.take_profit then
    match p9.take_profits with
    | v :: _ => { p9 with take_profit := some v }
    | [] => p9
  else p9

/-- `_determine_signal_type` (signal_parser.py:316-349). -/
def determineSignalType (normalized : List Char) : Option String :=
  let hasW := fun (w : String) => containsSubL normalized w.data
  if ["buy", "long", "entrada", "compra", "go long", "bullish", "upside", "buy stop",
      "buy limit"].any hasW then some "buy"
  else if ["sell", "short", "salida", "venta", "go short", "bearish", "downside",
      "sell stop", "sell limit"].any hasW then some "sell"
  else if ["close", "cierre", "cancelar", "exit", "liquidate"].any hasW then some "close"
  else if ["tp update", "take profit update", "target update", "nuevo tp"].any hasW then
    some "tp_update"
  else if ["sl update", "stop loss update", "nuevo sl", "stoploss update"].any hasW then
    some "sl_update"
  else if ["modify", "update", "change", "adjust", "modify position"].any hasW then
    some "modify"
  else none

/-- `_calculate_confidence` (signal_parser.py:515-549). -/
def calculateConfidence (signal_type symbol : Option String)
    (entry stop_loss take_profit : Option ℚ) (text : String) : ℚ :=
  let c : ℚ := 1/2
  let c := if truthyS signal_type then c + 15/100 else c
  let c := if truthyS symbol then c + 15/100 else c
  let c := if truthyQ entry then c + 1/10 else c
  let c := if truthyQ stop_loss then c + 1/10 else c
  let c := if truthyQ take_profit then c + 1/10 else c
  let c := if text.length > 50 then c + 5/100 else c
  let c := if text.length < 10 then c - 1/5 else c
  let c := if ¬ truthyS symbol ∨ ¬ truthyS signal_type then c * (7/10) else c
  min 1 (max 0 c)

/-- `_parse_with_heuristics` (signal_parser.py:217-257): the extracted
record. -/
def parseWithHeuristics (text : String) : ParsedSignal :=
  let normalized := (pyLower text).data
  let st := determineSignalType normalized
  let sym := extractSymbol text
  let pr := extractPrices text
  { symbol := sym
    signal_type := st
    entry_price := pr.entry
    entry_range := pr.entry_range
    stop_loss := pr.stop_loss
    take_profit := pr.take_profit
    take_profits := pr.take_profits
    confidence_score := calculateConfidence st sym pr.entry pr.stop_loss pr.take_profit text }

/-- The parser's output: the heuristic record plus the classification
(`parse_signal`, signal_parser.py:64-89, in the no-LLM configuration). -/
structure ParseOutput where
  record : ParsedSignal
  category : String
  modification_type : Option String
  is_actionable : Bool

/-- `parse_signal` in the heuristic (no API key) configuration. -/
def parseSignal (text : String) : ParseOutput :=
  let cls := classifyMessage text
  let rec0 := parseWithHeuristics text
  { record := rec0
    category := cls.1
    modification_type := cls.2
    is_actionable := cls.1 = "actionable_signal" }

/-! ## Concrete scenario inputs -/

/-- A buy signal whose extracted levels violate the buy orientation rule
(SL above entry, TP below entry): scenario 4 of the spec. -/
def pOrientationBad : ParsedSignal :=
  { symbol := some "EURUSD"
    signal_type := some "buy"
    entry_price := some (11/10)
    stop_loss := some (111/100)
    take_profit := some (109/100)
    confidence_score := 1 }

/-- A valid buy signal carrying an entry range `[1, 2]` and no
SL/TP triple. -/
def pRangeBuy : ParsedSignal :=
  { symbol := some "EURUSD"
    signal_type := some "buy"
    confidence_score := 1
    entry_range := [1, 2] }

/-- A fresh pending execution row for the range-buy signal. -/
def exRangeBuy : TradeExecution :=
  { status := ExecState.pending
    symbol := some "EURUSD"
    side := some "buy"
    volume := 1/10 }

/-- A quote with ask above the range's high bound, forcing the limit
path. -/
def piAbove : PriceInfo := { bid := 3, ask := 3, point := 1/10000, digits := 5 }

/-- A DONE `order_send` response with ticket 42. -/
def srDone : MT5SendResult := { retcode := 10009, order := 42 }

/-- Environment in which the range-buy execution is placed as a limit
order that succeeds. -/
def envLimitPath : BrokerEnv :=
  { mt5_password := some "pw"
    connectOk := true
    priceInfo := some piAbove
    limitSend := some srDone }

/-- The scenario-1 style seven-TP sell signal. -/
def pGold : ParsedSignal :=
  { symbol := some "XAUUSD"
    signal_type := some "sell"
    confidence_score := 1
    take_profits := [4600, 4598, 4596, 4594, 4592, 4588, 4583] }

/-- Preferences with manual approval off and risk 1.0 (auto path). -/
def upAuto : UserPrefs :=
  { manual_approval := false
    risk_per_trade := some 1
    max_slippage := 5
    use_limit_orders := true }

/-! ## Claim theorems -/

/-- Claim C2 (corrected): once every execution of a signal is resolved,
the signal is `rejected` exactly when all executions are CANCELLED; it
is `processed` exactly when all executions are terminal and at least
one of them is **not** CANCELLED — a signal whose executions all ended
FAILED is also marked `processed`, so "at least one EXECUTED or CLOSED"
is not required. -/
theorem signalStatus_characterization (sts : List ExecState) (h : sts ≠ []) :
    (updateSignalStatus "pending" sts = "rejected" ↔ ∀ s ∈ sts, s = ExecState.cancelled) ∧
    (updateSignalStatus "pending" sts = "processed" ↔
      ((∀ s ∈ sts, s ∈ resolvedStates) ∧ ∃ s ∈ sts, s ≠ ExecState.cancelled)) := by
  unfold updateSignalStatus
  rw [if_neg h]
  by_cases hres : sts.all (fun s => s ∈ resolvedStates) = true
  · rw [if_pos hres]
    by_cases hcan : sts.all (fun s => s = ExecState.cancelled) = true
    · rw [if_pos hcan]
      simp only [List.all_eq_true, decide_eq_true_eq] at hres hcan
      constructor
      · constructor
        · intro _; exact hcan
        · intro _; rfl
      · constructor
        · intro hcontra; exact absurd hcontra (by decide)
        · rintro ⟨_, s, hs, hne⟩; exact absurd (hcan s hs) hne
    · rw [if_neg hcan]
      simp only [List.all_eq_true, decide_eq_true_eq] at hres hcan
      push_neg at hcan
      obtain ⟨s0, hs0, hs0ne⟩ := hcan
      constructor
      · constructor
        · intro hcontra; exact absurd hcontra (by decide)
        · intro hall; exact absurd (hall s0 hs0) hs0ne
      · constructor
        · intro _; exact ⟨hres, s0, hs0, hs0ne⟩
        · intro _; rfl
  · rw [if_neg hres]
    simp only [List.all_eq_true, decide_eq_true_eq] at hres
    push_neg at hres
    obtain ⟨s0, hs0, hs0not⟩ := hres
    have hs0nc : s0 ≠ ExecState.cancelled := by
      intro hc; exact hs0not (by rw [hc]; decide)
    constructor
    · constructor
      · intro hcontra; exact absurd hcontra (by decide)
      · intro hall
        exact absurd (by rw [hall s0 hs0]; decide : s0 ∈ resolvedStates) hs0not
    · constructor
      · intro hcontra; exact absurd hcontra (by decide)
      · rintro ⟨hterm, -⟩; exact absurd (hterm s0 hs0) hs0not

/-- Witness for `signalStatus_characterization` at a concrete
resolution. -/
theorem signalStatus_characterization_witness :
    ([ExecState.cancelled] ≠ []) ∧
    (updateSignalStatus "pending" [ExecState.cancelled] = "rejected" ↔
      ∀ s ∈ [ExecState.cancelled], s = ExecState.cancelled) := by
  refine ⟨by decide, ?_⟩
  exact (signalStatus_characterization [ExecState.cancelled] (by decide)).1

/-- Counterexample to claim C2 as stated: a signal whose single
execution ended FAILED is marked `processed` although none of its
executions is EXECUTED or CLOSED. -/
theorem signalStatus_failed_counterexample :
    updateSignalStatus "pending" [ExecState.failed] = "processed" ∧
    ¬ ∃ s ∈ [ExecState.failed], s = ExecState.executed ∨ s = ExecState.closed := by
  decide

/-- Length of the engine's TP list: `max 1 (len take_profits)`. -/
theorem computeTPs_length (p : ParsedSignal) :
    (computeTPs p).length = max 1 p.take_profits.length := by
  unfold computeTPs
  cases hl : p.take_profits with
  | nil =>
    simp only [hl, List.map_nil, List.length_nil]
    by_cases ht : truthyQ p.take_profit = true <;> simp [ht]
  | cons a l =>
    have hne : (a :: l).map some ≠ [] := by simp
    simp only [hl]
    rw [if_neg (by simp), if_neg (by simp)]
    simp [Nat.max_eq_right (Nat.succ_le_succ (Nat.zero_le _))]

/-- `pos_volume` under a truthy risk preference is the clamped rounded
split of the claim. -/
theorem posVolume_eq_max (p : ParsedSignal) (up : UserPrefs) (r : ℚ)
    (hr : up.risk_per_trade = some r) (hrne : r ≠ 0) :
    posVolume (some up) p =
      max (1/100) (round2 (r / (max 1 p.take_profits.length : ℕ))) := by
  unfold posVolume
  have htot : totalVolume (some up) = r := by
    simp [totalVolume, truthyQ, hr, hrne]
  rw [htot, computeTPs_length]
  rcases lt_or_le (round2 (r / (max 1 p.take_profits.length : ℕ))) (1/100) with hlt | hle
  · rw [if_pos hlt]
    exact (max_eq_left hlt.le).symm
  · rw [if_neg (not_lt.mpr hle)]
    exact (max_eq_right hle).symm

/-- Claim C6 (corrected): an actionable signal fans out into
`max 1 (len take_profits)` executions — except on the manual-approval
path when the signal fails pre-trade validation, where `execute_signal`
returns before creating any execution; every execution that **is**
created carries volume `max(0.01, round(risk_per_trade / number_of_TPs,
2))` when the preferences hold a truthy `risk_per_trade`. -/
theorem fanout_gated_count_and_volume (p : ParsedSignal) (prefs : Option UserPrefs) :
    ((createdExecutions p prefs).length =
      if manualApprovalGate prefs = true ∧ validateSignal p = false then 0
      else max 1 p.take_profits.length) ∧
    (∀ up r, prefs = some up → up.risk_per_trade = some r → r ≠ 0 →
      ∀ e ∈ createdExecutions p prefs,
        e.volume = max (1/100) (round2 (r / (max 1 p.take_profits.length : ℕ)))) := by
  constructor
  · unfold createdExecutions
    by_cases hg : manualApprovalGate prefs = true
    · by_cases hv : validateSignal p = true
      · rw [if_pos hg, if_neg (by simp [hv]), List.length_map, computeTPs_length,
          if_neg (by simp [hv])]
      · rw [if_pos hg, if_pos (by simp [hv]),
          if_pos ⟨hg, by simpa using hv⟩]
        rfl
    · rw [if_neg (by simpa using hg), List.length_map, computeTPs_length,
        if_neg (by simp [hg])]
  · intro up r hup hr hrne e he
    unfold createdExecutions at he
    have hvol : ∀ st tp, e = mkExecutionRow p prefs st tp →
        e.volume = max (1/100) (round2 (r / (max 1 p.take_profits.length : ℕ))) := by
      intro st tp hrow
      rw [hrow]
      show posVolume prefs p = _
      rw [hup]
      exact posVolume_eq_max p up r hr hrne
    split at he
    · split at he
      · exact absurd he (by simp)
      · obtain ⟨tp, -, hrow⟩ := List.mem_map.mp he
        exact hvol _ tp hrow.symm
    · obtain ⟨tp, -, hrow⟩ := List.mem_map.mp he
      exact hvol _ tp hrow.symm

/-- Witness for `fanout_gated_count_and_volume`: risk 1.0 over seven
TPs on the auto path gives 7 executions of volume
`max(0.01, round(1/7, 2)) = 0.14`. -/
theorem fanout_gated_count_and_volume_witness :
    ((createdExecutions pGold (some upAuto)).length =
      if manualApprovalGate (some upAuto) = true ∧ validateSignal pGold = false then 0
      else max 1 pGold.take_profits.length) ∧
    ∀ e ∈ createdExecutions pGold (some upAuto),
      e.volume = max (1/100) (round2 (1 / (max 1 pGold.take_profits.length : ℕ))) :=
  ⟨(fanout_gated_count_and_volume pGold (some upAuto)).1,
    fun e he => (fanout_gated_count_and_volume pGold (some upAuto)).2 upAuto 1
      rfl rfl (by norm_num) e he⟩

set_option maxRecDepth 100000 in
/-- Counterexample to claim C6 as stated: the message parses to an
actionable buy with inverted SL/TP (scenario 4); under the
manual-approval preference `execute_signal` fails validation at the
gate and creates **zero** executions, not `max(1, len take_profits)
= 1`. -/
theorem fanout_validation_gate_counterexample :
    (classifyMessage "EURUSD buy 1.1 sl 1.11 tp 1.09").1 = "actionable_signal" ∧
    validateSignal (parseSignal "EURUSD buy 1.1 sl 1.11 tp 1.09").record = false ∧
    createdExecutions (parseSignal "EURUSD buy 1.1 sl 1.11 tp 1.09").record
      (some { manual_approval := true, risk_per_trade := some 1, max_slippage := 5, use_limit_orders := true }) = [] ∧
    max 1 (parseSignal "EURUSD buy 1.1 sl 1.11 tp 1.09").record.take_profits.length = 1 := by
  with_unfolding_all decide

/-- Claim C10 (confirmed): the confirm endpoint only resumes executions
in PENDING_APPROVAL or FAILED, and the signal dict it re-enters the
engine with carries `confidence_score = 1.0`, so the engine's
`confidence ≥ 0.5` check can never fail on the resumed path. -/
theorem confirm_confidence_always_passes (e : TradeExecution)
    (req : TradeModifyRequest) (p : ParsedSignal)
    (h : confirmExecution e req = some p) :
    (e.status = ExecState.pendingApproval ∨ e.status = ExecState.failed) ∧
    p.confidence_score = 1 ∧ ¬ (p.confidence_score < 1/2) := by
  unfold confirmExecution at h
  split at h
  · rename_i hstat
    have hp : confirmSignalData (confirmOverride e req) = p := Option.some.inj h
    subst hp
    exact ⟨hstat, rfl, by norm_num [confirmSignalData]⟩
  · exact absurd h (by simp)

/-- Witness for `confirm_confidence_always_passes` at a concrete
FAILED execution. -/
theorem confirm_confidence_always_passes_witness :
    ({ status := ExecState.failed : TradeExecution }.status = ExecState.pendingApproval ∨
      { status := ExecState.failed : TradeExecution }.status = ExecState.failed) ∧
    (confirmSignalData (confirmOverride { status := ExecState.failed } {})).confidence_score = 1 ∧
    ¬ ((confirmSignalData (confirmOverride { status := ExecState.failed } {})).confidence_score < 1/2) :=
  confirm_confidence_always_passes { status := ExecState.failed } {}
    (confirmSignalData (confirmOverride { status := ExecState.failed } {})) rfl

/-- Every failure cause enumerated in the spec makes
`_validate_signal` return `False`. -/
theorem validateSignal_false_of_fails (p : ParsedSignal) (h : failsPreTrade p) :
    validateSignal p = false := by
  unfold validateSignal
  by_cases h1 : truthyS p.symbol = true
  case neg => rw [if_pos (by simpa using h1)]
  rw [if_neg (by simpa using h1)]
  by_cases h2 : truthyS p.signal_type = true
  case neg => rw [if_pos (by simpa using h2)]
  rw [if_neg (by simpa using h2)]
  by_cases h3 : p.confidence_score < 1/2
  case pos => rw [if_pos h3]
  rw [if_neg h3]
  rcases h with h | h | h | ⟨he, hs, ht, hor⟩
  · rw [h1] at h; exact absurd h (by simp)
  · rw [h2] at h; exact absurd h (by simp)
  · exact absurd h h3
  · rw [he, hs, ht]
    show (if p.signal_type = some "buy" then _ else _) = false
    rcases hor with ⟨hb, hno⟩ | ⟨hse, hno⟩
    · rw [if_pos hb]
      exact decide_eq_false hno
    · rw [if_neg (by rw [hse]; simp), if_pos hse]
      exact decide_eq_false hno

/-- Claim C3 (corrected): a pre-trade validation failure transitions the
execution to FAILED with the recorded error string
`"Signal validation failed"` and performs no broker operation (and no
broadcast at all); the orientation-specific "invalid price levels"
message is only written to the log, never recorded on the Execution. -/
theorem validation_failure_no_broker (ex0 : TradeExecution) (p : ParsedSignal)
    (prefs : Option UserPrefs) (env : BrokerEnv) (h : failsPreTrade p) :
    (processSingleExecution ex0 p prefs env).ex.status = ExecState.failed ∧
    (processSingleExecution ex0 p prefs env).ex.execution_error =
      some "Signal validation failed" ∧
    (processSingleExecution ex0 p prefs env).log = [] := by
  have hv := validateSignal_false_of_fails p h
  simp [processSingleExecution, hv]

/-- Witness for `validation_failure_no_broker` at the orientation-violating
buy signal of scenario 4. -/
theorem validation_failure_no_broker_witness :
    (processSingleExecution { status := ExecState.pending } pOrientationBad none {}).ex.status =
      ExecState.failed ∧
    (processSingleExecution { status := ExecState.pending } pOrientationBad none {}).ex.execution_error =
      some "Signal validation failed" ∧
    (processSingleExecution { status := ExecState.pending } pOrientationBad none {}).log = [] :=
  validation_failure_no_broker { status := ExecState.pending } pOrientationBad none {}
    (Or.inr (Or.inr (Or.inr (by with_unfolding_all decide))))

/-- Counterexample to claim C3 as stated: for the orientation-violating
buy, the error string recorded on the FAILED execution does **not**
contain "invalid price levels". -/
theorem validation_error_text_counterexample :
    (processSingleExecution { status := ExecState.pending } pOrientationBad none {}).ex.execution_error =
      some "Signal validation failed" ∧
    containsSub "Signal validation failed" "invalid price levels" = false := by
  constructor
  · with_unfolding_all decide
  · decide

/-- Sessions other than `s` never produce a `sent s` outcome. -/
theorem sent_count_zero (sendOk : ℕ → Bool) (s : ℕ) (cs : List ℕ) (hs : s ∉ cs) :
    (cs.map (wsAttempt sendOk)).count (WSEv.sent s) = 0 := by
  rw [List.count_eq_zero]
  intro hmem
  obtain ⟨c, hc, hfc⟩ := List.mem_map.mp hmem
  by_cases hok : sendOk c <;> simp [wsAttempt, hok] at hfc
  exact hs (hfc ▸ hc)

/-- Over a duplicate-free session list, each session is delivered to at
most once. -/
theorem sent_count_le_one (sendOk : ℕ → Bool) (s : ℕ) (cs : List ℕ) (h : cs.Nodup) :
    (cs.map (wsAttempt sendOk)).count (WSEv.sent s) ≤ 1 := by
  have hinj : Function.Injective (wsAttempt sendOk) := by
    intro a b hab
    by_cases ha : sendOk a <;> by_cases hb : sendOk b <;>
      simp [wsAttempt, ha, hb] at hab
    all_goals exact hab
  exact List.nodup_iff_count_le_one.mp (h.map hinj) _

/-- Claim C9 (corrected): a broadcast targeted at a user delivers to each
of that user's registered sessions at most once; a send error is logged
and the loop continues, but the session is **not** removed —
`broadcast` never mutates the registry. -/
theorem broadcast_at_most_once_no_drop (reg : WSRegistry) (u : ℕ)
    (sendOk : ℕ → Bool) (s : ℕ) (h : WSWellFormed reg) :
    (broadcastEvents reg (some u) sendOk).count (WSEv.sent s) ≤ 1 ∧
    broadcastRegistryAfter reg (some u) sendOk = reg := by
  refine ⟨?_, rfl⟩
  unfold broadcastEvents
  dsimp only
  cases hf : lookupConns reg u with
  | none => simp
  | some cs =>
    dsimp only
    have hcs : cs.Nodup := by
      unfold lookupConns at hf
      obtain ⟨e, he, rfl⟩ := Option.map_eq_some'.mp hf
      exact h.2 e (List.mem_of_find?_eq_some he)
    exact sent_count_le_one sendOk s cs hcs

/-- Witness for `broadcast_at_most_once_no_drop` on a two-session
registry. -/
theorem broadcast_at_most_once_no_drop_witness :
    (broadcastEvents [(1, [7, 8])] (some 1) (fun c => c = 7)).count (WSEv.sent 7) ≤ 1 ∧
    broadcastRegistryAfter [(1, [7, 8])] (some 1) (fun c => c = 7) = [(1, [7, 8])] :=
  broadcast_at_most_once_no_drop [(1, [7, 8])] 1 (fun c => c = 7) 7
    (by constructor
        · decide
        · intro e he
          simp at he
          rw [he]
          decide)

/-- Counterexample to claim C9 as stated: session 7's send raises, the
error is logged, yet the session is still registered after the
broadcast — it is not dropped. -/
theorem send_error_not_dropped_counterexample :
    broadcastEvents [(1, [7])] (some 1) (fun _ => false) = [WSEv.errorLogged 7] ∧
    lookupConns (broadcastRegistryAfter [(1, [7])] (some 1) (fun _ => false)) 1 =
      some [7] :=
  ⟨rfl, rfl⟩

/-- A successful market-order dict always carries a ticket and the fill
price. -/
theorem executeMarketOrder_success_fields (c : Bool) (s : String)
    (si : Option SymbolInfo) (sr : Option MT5SendResult)
    (h : (executeMarketOrder c s si sr).success = true) :
    (executeMarketOrder c s si sr).ticket ≠ none ∧
    (executeMarketOrder c s si sr).entry_price ≠ none := by
  revert h
  unfold executeMarketOrder
  split
  · intro h; exact absurd h (by simp)
  · split
    · intro h; exact absurd h (by simp)
    · split
      · intro h; exact absurd h (by simp)
      · split
        · intro h; exact absurd h (by simp)
        · split
          · intro h; exact absurd h (by simp)
          · intro _; exact ⟨by simp, by simp⟩

/-- A successful limit-order dict carries a ticket but **no**
`entry_price` key. -/
theorem executeLimitOrder_success_fields (c : Bool) (s : String) (pr : ℚ)
    (sr : Option MT5SendResult)
    (h : (executeLimitOrder c s pr sr).success = true) :
    (executeLimitOrder c s pr sr).ticket ≠ none ∧
    (executeLimitOrder c s pr sr).entry_price = none := by
  revert h
  unfold executeLimitOrder
  split
  · intro h; exact absurd h (by simp)
  · split
    · intro h; exact absurd h (by simp)
    · split
      · intro h; exact absurd h (by simp)
      · split
        · intro h; exact absurd h (by simp)
        · intro _; exact ⟨by simp, by simp⟩

/-- `procFinish` reaches EXECUTED only from a successful order dict, and
copies that dict's ticket and `entry_price`. -/
theorem procFinish_executed_fields (ex : TradeExecution) (log : List Ev)
    (res : OrderDict) (h : (procFinish ex log res).ex.status = ExecState.executed) :
    res.success = true ∧
    (procFinish ex log res).ex.ticket_number = res.ticket ∧
    (procFinish ex log res).ex.actual_entry_price = res.entry_price := by
  by_cases hs : res.success = true
  · simp [procFinish, hs]
  · exfalso
    simp [procFinish, hs, procFail] at h

/-- `procFinish` appends no order call to the log. -/
theorem procFinish_countP_limit (ex : TradeExecution) (log : List Ev)
    (res : OrderDict) :
    (procFinish ex log res).log.countP Ev.isLimitCall = log.countP Ev.isLimitCall := by
  unfold procFinish procFail
  split <;> simp [List.countP_append, Ev.isLimitCall]

/-- Claim C1 (corrected): an EXECUTED execution always has a non-null
broker ticket; its actual entry price is non-null exactly when the
filled order was a market order — on the limit path (direct or
market-to-limit fallback) the broker result carries no `entry_price`
key and the stored actual entry is null. -/
theorem executed_ticket_nonnull (ex0 : TradeExecution) (p : ParsedSignal)
    (prefs : Option UserPrefs) (env : BrokerEnv)
    (h : (processSingleExecution ex0 p prefs env).ex.status = ExecState.executed) :
    (processSingleExecution ex0 p prefs env).ex.ticket_number ≠ none ∧
    ((processSingleExecution ex0 p prefs env).log.countP Ev.isLimitCall = 0 →
      (processSingleExecution ex0 p prefs env).ex.actual_entry_price ≠ none) ∧
    ((processSingleExecution ex0 p prefs env).log.countP Ev.isLimitCall ≠ 0 →
      (processSingleExecution ex0 p prefs env).ex.actual_entry_price = none) := by
  by_cases hv : validateSignal p = true
  case neg =>
    exfalso
    simp [processSingleExecution, hv] at h
  by_cases hcr : truthyS env.mt5_password = true
  case neg =>
    exfalso
    simp [processSingleExecution, hv, hcr, procFail] at h
  by_cases hcn : env.connectOk = true
  case neg =>
    exfalso
    simp [processSingleExecution, hv, hcr, hcn, procFail] at h
  by_cases hdec : (decideOrder { ex0 with status := ExecState.validated } p prefs
      env.priceInfo).1 = true
  · -- direct limit path
    simp only [processSingleExecution, hv, hcr, hcn, hdec, not_true, not_false_iff,
      if_neg, if_pos, if_true, if_false, Bool.not_eq_true] at h ⊢
    obtain ⟨hsucc, hticket, hentry⟩ := procFinish_executed_fields _ _ _ h
    obtain ⟨ht, he⟩ := executeLimitOrder_success_fields _ _ _ _ hsucc
    refine ⟨hticket ▸ ht, ?_, fun _ => hentry ▸ he⟩
    intro hcount
    rw [procFinish_countP_limit] at hcount
    simp [Ev.isLimitCall] at hcount
  · -- market branch
    simp only [processSingleExecution] at h ⊢
    rw [if_neg (by simp [hv]), if_neg (by simp [hcr]), if_neg (by simp [hcn]),
      if_neg (by simp [hdec])] at h ⊢
    by_cases hm : (executeMarketOrder env.connectOk
        (({ ex0 with status := ExecState.validated } : TradeExecution).side.getD "")
        env.symbolInfo env.marketSend).success = true
    · -- market order succeeded: no fallback
      rw [if_neg (by simp [hm])] at h ⊢
      obtain ⟨hsucc, hticket, hentry⟩ := procFinish_executed_fields _ _ _ h
      obtain ⟨ht, he⟩ := executeMarketOrder_success_fields _ _ _ _ hsucc
      refine ⟨hticket ▸ ht, fun _ => hentry ▸ he, ?_⟩
      intro hcount
      exfalso
      rw [procFinish_countP_limit] at hcount
      simp [Ev.isLimitCall] at hcount
    · by_cases hfb : truthyQ (({ ex0 with status := ExecState.validated } :
          TradeExecution).entry_price) = true
      · -- fallback limit path
        rw [if_pos (by exact ⟨by simpa using hm, hfb⟩)] at h ⊢
        obtain ⟨hsucc, hticket, hentry⟩ := procFinish_executed_fields _ _ _ h
        obtain ⟨ht, he⟩ := executeLimitOrder_success_fields _ _ _ _ hsucc
        refine ⟨hticket ▸ ht, ?_, fun _ => hentry ▸ he⟩
        intro hcount
        rw [procFinish_countP_limit] at hcount
        simp [Ev.isLimitCall] at hcount
      · -- market failed, no planned entry: FAILED, not EXECUTED
        exfalso
        rw [if_neg (by simp [hfb])] at h
        obtain ⟨hsucc, -, -⟩ := procFinish_executed_fields _ _ _ h
        exact hm hsucc

/-- Witness for `executed_ticket_nonnull`: a successful market fill
stores both ticket and actual entry. -/
theorem executed_ticket_nonnull_witness :
    (processSingleExecution exRangeBuy pRangeBuy none
        { mt5_password := some "pw", connectOk := true,
          priceInfo := some { bid := 3/2, ask := 3/2, point := 1/10000, digits := 5 },
          symbolInfo := some { ask := 3/2, bid := 3/2 },
          marketSend := some srDone }).ex.ticket_number ≠ none :=
  (executed_ticket_nonnull exRangeBuy pRangeBuy none
    { mt5_password := some "pw", connectOk := true,
      priceInfo := some { bid := 3/2, ask := 3/2, point := 1/10000, digits := 5 },
      symbolInfo := some { ask := 3/2, bid := 3/2 },
      marketSend := some srDone }
    (by with_unfolding_all decide)).1

/-- Counterexample to claim C1 as stated: the range-buy execution is
filled through the limit path and ends EXECUTED with a ticket but a
null actual entry price. -/
theorem executed_null_entry_counterexample :
    (processSingleExecution exRangeBuy pRangeBuy none envLimitPath).ex.status =
      ExecState.executed ∧
    (processSingleExecution exRangeBuy pRangeBuy none envLimitPath).ex.ticket_number =
      some 42 ∧
    (processSingleExecution exRangeBuy pRangeBuy none envLimitPath).ex.actual_entry_price =
      none := by
  with_unfolding_all decide

/-- With an entry range `[low, high]` and a quote, the pricing decision
is exactly the spec's rule: buys go market iff `ask ≤ high` (else limit
at `high`), sells go market iff `bid ≥ low` (else limit at `low`). -/
theorem decideOrder_range (ex : TradeExecution) (p : ParsedSignal)
    (prefs : Option UserPrefs) (pi : PriceInfo) (low high : ℚ)
    (hrange : p.entry_range = [low, high]) :
    decideOrder ex p prefs (some pi) =
      if ex.side = some "buy" then
        (if pi.ask ≤ high then (false, pyOr ex.entry_price 0) else (true, high))
      else
        (if pi.bid ≥ low then (false, pyOr ex.entry_price 0) else (true, low)) := by
  by_cases hb : ex.side = some "buy" <;>
    simp [decideOrder, hrange, hb]

/-- `procFinish` appends exactly one non-broker-call event to the log. -/
theorem procFinish_log_shape (ex : TradeExecution) (log : List Ev) (res : OrderDict) :
    ∃ t, (procFinish ex log res).log = log ++ [t] ∧ t.isBrokerCall = false := by
  unfold procFinish procFail
  split
  · exact ⟨_, rfl, rfl⟩
  · exact ⟨_, rfl, rfl⟩

/-- `firstBrokerCall` ignores a trailing non-call event. -/
theorem firstBrokerCall_append_notcall (log : List Ev) (t : Ev)
    (ht : t.isBrokerCall = false) :
    firstBrokerCall (log ++ [t]) = firstBrokerCall log := by
  unfold firstBrokerCall
  induction log with
  | nil => simp [List.find?, ht]
  | cons a l ih =>
    by_cases ha : a.isBrokerCall = true
    · simp [List.find?_cons_of_pos _ ha]
    · rw [List.cons_append, List.find?_cons_of_neg _ (by simp [ha]),
        List.find?_cons_of_neg _ (by simp [ha]), ih]

/-- The bookkeeping event appended by `procFinish` does not change the
first broker call. -/
theorem firstBrokerCall_procFinish (ex : TradeExecution) (log : List Ev)
    (res : OrderDict) :
    firstBrokerCall (procFinish ex log res).log = firstBrokerCall log := by
  obtain ⟨t, hlog, hat⟩ := procFinish_log_shape ex log res
  rw [hlog, firstBrokerCall_append_notcall _ _ hat]

/-- Claim C4 (confirmed): with an extracted entry range `[low, high]`
and an available quote, a buy is placed as a market order iff
`ask ≤ high` and otherwise as a limit order at `high`; a sell is placed
as a market order iff `bid ≥ low` and otherwise as a limit order at
`low`. -/
theorem range_pricing_rule (ex0 : TradeExecution) (p : ParsedSignal)
    (prefs : Option UserPrefs) (env : BrokerEnv) (low high : ℚ) (pi : PriceInfo)
    (hrange : p.entry_range = [low, high])
    (hpi : env.priceInfo = some pi)
    (hv : validateSignal p = true)
    (hcr : truthyS env.mt5_password = true)
    (hcn : env.connectOk = true) :
    (ex0.side = some "buy" →
      (pi.ask ≤ high →
        firstBrokerCall (processSingleExecution ex0 p prefs env).log =
          some (Ev.callMarket ex0.symbol ex0.side ex0.volume
            (optArg ex0.stop_loss) (optArg ex0.take_profit))) ∧
      (¬ pi.ask ≤ high →
        firstBrokerCall (processSingleExecution ex0 p prefs env).log =
          some (Ev.callLimit ex0.symbol ex0.side high ex0.volume
            (optArg ex0.stop_loss) (optArg ex0.take_profit)))) ∧
    (ex0.side = some "sell" →
      (pi.bid ≥ low →
        firstBrokerCall (processSingleExecution ex0 p prefs env).log =
          some (Ev.callMarket ex0.symbol ex0.side ex0.volume
            (optArg ex0.stop_loss) (optArg ex0.take_profit))) ∧
      (¬ pi.bid ≥ low →
        firstBrokerCall (processSingleExecution ex0 p prefs env).log =
          some (Ev.callLimit ex0.symbol ex0.side low ex0.volume
            (optArg ex0.stop_loss) (optArg ex0.take_profit)))) := by
  have hdecEq := decideOrder_range { ex0 with status := ExecState.validated } p prefs
    pi low high hrange
  constructor
  · intro hbuy
    have hside : ({ ex0 with status := ExecState.validated } :
        TradeExecution).side = some "buy" := hbuy
    constructor
    · intro hle
      have hdec : decideOrder { ex0 with status := ExecState.validated } p prefs
          env.priceInfo = (false, pyOr ex0.entry_price 0) := by
        rw [hpi, hdecEq, if_pos hside, if_pos hle]
      simp only [processSingleExecution]
      rw [if_neg (by simp [hv]), if_neg (by simp [hcr]), if_neg (by simp [hcn]), hdec]
      rw [if_neg (by simp)]
      split <;>
        rw [firstBrokerCall_procFinish] <;>
        simp [firstBrokerCall, List.find?, Ev.isBrokerCall]
    · intro hgt
      have hdec : decideOrder { ex0 with status := ExecState.validated } p prefs
          env.priceInfo = (true, high) := by
        rw [hpi, hdecEq, if_pos hside, if_neg hgt]
      simp only [processSingleExecution]
      rw [if_neg (by simp [hv]), if_neg (by simp [hcr]), if_neg (by simp [hcn]), hdec]
      rw [if_pos (by simp)]
      rw [firstBrokerCall_procFinish]
      simp [firstBrokerCall, List.find?, Ev.isBrokerCall]
  · intro hsell
    have hside : ({ ex0 with status := ExecState.validated } :
        TradeExecution).side ≠ some "buy" := by
      show ex0.side ≠ some "buy"
      rw [hsell]; simp
    constructor
    · intro hge
      have hdec : decideOrder { ex0 with status := ExecState.validated } p prefs
          env.priceInfo = (false, pyOr ex0.entry_price 0) := by
        rw [hpi, hdecEq, if_neg hside, if_pos hge]
      simp only [processSingleExecution]
      rw [if_neg (by simp [hv]), if_neg (by simp [hcr]), if_neg (by simp [hcn]), hdec]
      rw [if_neg (by simp)]
      split <;>
        rw [firstBrokerCall_procFinish] <;>
        simp [firstBrokerCall, List.find?, Ev.isBrokerCall]
    · intro hlt
      have hdec : decideOrder { ex0 with status := ExecState.validated } p prefs
          env.priceInfo = (true, low) := by
        rw [hpi, hdecEq, if_neg hside, if_neg hlt]
      simp only [processSingleExecution]
      rw [if_neg (by simp [hv]), if_neg (by simp [hcr]), if_neg (by simp [hcn]), hdec]
      rw [if_pos (by simp)]
      rw [firstBrokerCall_procFinish]
      simp [firstBrokerCall, List.find?, Ev.isBrokerCall]

/-- Witness for `range_pricing_rule`: ask 3 above the range `[1, 2]`
places a limit order at 2. -/
theorem range_pricing_rule_witness :
    ¬ piAbove.ask ≤ 2 ∧
    firstBrokerCall (processSingleExecution exRangeBuy pRangeBuy none envLimitPath).log =
      some (Ev.callLimit exRangeBuy.symbol exRangeBuy.side 2 exRangeBuy.volume
        (optArg exRangeBuy.stop_loss) (optArg exRangeBuy.take_profit)) := by
  have h := (range_pricing_rule exRangeBuy pRangeBuy none envLimitPath 1 2 piAbove
    rfl rfl (by with_unfolding_all decide) rfl rfl).1 rfl
  exact ⟨by with_unfolding_all decide, h.2 (by with_unfolding_all decide)⟩

/-- Claim C5 (confirmed): when a market order fails and the execution
has a planned entry price, exactly one retry is made as a limit order
at that planned entry, with the `falling_back` broadcast between the
failed market call and the retry; a failed limit order — placed
directly or as the fallback — is never retried (a direct-limit run
makes exactly one broker call, and the fallback run exactly one limit
call). -/
theorem market_to_limit_fallback (ex0 : TradeExecution) (p : ParsedSignal)
    (prefs : Option UserPrefs) (env : BrokerEnv) (pe : ℚ)
    (hv : validateSignal p = true)
    (hcr : truthyS env.mt5_password = true)
    (hcn : env.connectOk = true)
    (hentry : ex0.entry_price = some pe) (hpe : 0 < pe) :
    ((decideOrder { ex0 with status := ExecState.validated } p prefs env.priceInfo).1
        = false →
      (executeMarketOrder env.connectOk (ex0.side.getD "") env.symbolInfo
          env.marketSend).success = false →
      (∃ t, (processSingleExecution ex0 p prefs env).log =
          [Ev.wsExecuting ex0.symbol,
           Ev.callMarket ex0.symbol ex0.side ex0.volume
             (optArg ex0.stop_loss) (optArg ex0.take_profit),
           Ev.wsFallingBack pe,
           Ev.callLimit ex0.symbol ex0.side pe ex0.volume
             (optArg ex0.stop_loss) (optArg ex0.take_profit)] ++ [t] ∧
        t.isBrokerCall = false) ∧
      (processSingleExecution ex0 p prefs env).log.countP Ev.isMarketCall = 1 ∧
      (processSingleExecution ex0 p prefs env).log.countP Ev.isLimitCall = 1) ∧
    ((decideOrder { ex0 with status := ExecState.validated } p prefs env.priceInfo).1
        = true →
      (processSingleExecution ex0 p prefs env).log.countP Ev.isBrokerCall = 1) := by
  have htr : truthyQ (({ ex0 with status := ExecState.validated } :
      TradeExecution).entry_price) = true := by
    show truthyQ ex0.entry_price = true
    rw [hentry]
    simp [truthyQ, hpe.ne.symm]
  constructor
  · intro hdec hm
    have hred : processSingleExecution ex0 p prefs env =
        procFinish { ex0 with status := ExecState.executing }
          (([Ev.wsExecuting ex0.symbol] ++
            [Ev.callMarket ex0.symbol ex0.side ex0.volume
              (optArg ex0.stop_loss) (optArg ex0.take_profit)] ++
            [Ev.wsFallingBack pe]) ++
            [Ev.callLimit ex0.symbol ex0.side pe ex0.volume
              (optArg ex0.stop_loss) (optArg ex0.take_profit)])
          (executeLimitOrder env.connectOk (ex0.side.getD "") pe env.limitSend) := by
      simp only [processSingleExecution]
      rw [if_neg (by simp [hv]), if_neg (by simp [hcr]), if_neg (by simp [hcn]),
        if_neg (by simp [hdec]), if_pos (by exact ⟨by simp [hm], htr⟩)]
      have hget : (({ ex0 with status := ExecState.validated } :
          TradeExecution).entry_price).getD 0 = pe := by
        show ex0.entry_price.getD 0 = pe
        rw [hentry]; rfl
      rw [hget]
    rw [hred]
    obtain ⟨t, hlog, hat⟩ := procFinish_log_shape { ex0 with status := ExecState.executing }
      (([Ev.wsExecuting ex0.symbol] ++
        [Ev.callMarket ex0.symbol ex0.side ex0.volume
          (optArg ex0.stop_loss) (optArg ex0.take_profit)] ++
        [Ev.wsFallingBack pe]) ++
        [Ev.callLimit ex0.symbol ex0.side pe ex0.volume
          (optArg ex0.stop_loss) (optArg ex0.take_profit)])
      (executeLimitOrder env.connectOk (ex0.side.getD "") pe env.limitSend)
    rw [hlog]
    refine ⟨⟨t, by simp, hat⟩, ?_, ?_⟩ <;>
      simp [List.countP_append, List.countP_cons, Ev.isMarketCall, Ev.isLimitCall,
        List.countP_nil, hat, Ev.isBrokerCall] <;>
      cases t <;> simp_all [Ev.isMarketCall, Ev.isLimitCall, Ev.isBrokerCall]
  · intro hdec
    have hred : processSingleExecution ex0 p prefs env =
        procFinish { ex0 with status := ExecState.executing }
          ([Ev.wsExecuting ex0.symbol] ++
            [Ev.callLimit ex0.symbol ex0.side
              (decideOrder { ex0 with status := ExecState.validated } p prefs
                env.priceInfo).2 ex0.volume
              (optArg ex0.stop_loss) (optArg ex0.take_profit)])
          (executeLimitOrder env.connectOk (ex0.side.getD "")
            (decideOrder { ex0 with status := ExecState.validated } p prefs
              env.priceInfo).2 env.limitSend) := by
      simp only [processSingleExecution]
      rw [if_neg (by simp [hv]), if_neg (by simp [hcr]), if_neg (by simp [hcn]),
        if_pos (by simp [hdec])]
    rw [hred]
    obtain ⟨t, hlog, hat⟩ := procFinish_log_shape { ex0 with status := ExecState.executing }
      ([Ev.wsExecuting ex0.symbol] ++
        [Ev.callLimit ex0.symbol ex0.side
          (decideOrder { ex0 with status := ExecState.validated } p prefs
            env.priceInfo).2 ex0.volume
          (optArg ex0.stop_loss) (optArg ex0.take_profit)])
      (executeLimitOrder env.connectOk (ex0.side.getD "")
        (decideOrder { ex0 with status := ExecState.validated } p prefs
          env.priceInfo).2 env.limitSend)
    rw [hlog]
    simp [List.countP_append, List.countP_cons, Ev.isBrokerCall, hat]
    cases t <;> simp_all [Ev.isBrokerCall]

/-- Witness for `market_to_limit_fallback`: a failed market send with
planned entry 1.1 falls back to a single limit order at 1.1. -/
theorem market_to_limit_fallback_witness :
    (∃ t, (processSingleExecution
        { status := ExecState.pending, symbol := some "EURUSD", side := some "buy",
          volume := 1/10, entry_price := some (11/10) }
        { symbol := some "EURUSD", signal_type := some "buy", confidence_score := 1 }
        none
        { mt5_password := some "pw", connectOk := true,
          symbolInfo := some { ask := 3/2, bid := 3/2 },
          limitSend := some srDone }).log =
      [Ev.wsExecuting (some "EURUSD"),
       Ev.callMarket (some "EURUSD") (some "buy") (1/10) none none,
       Ev.wsFallingBack (11/10),
       Ev.callLimit (some "EURUSD") (some "buy") (11/10) (1/10) none none] ++ [t] ∧
      t.isBrokerCall = false) ∧
    (processSingleExecution
        { status := ExecState.pending, symbol := some "EURUSD", side := some "buy",
          volume := 1/10, entry_price := some (11/10) }
        { symbol := some "EURUSD", signal_type := some "buy", confidence_score := 1 }
        none
        { mt5_password := some "pw", connectOk := true,
          symbolInfo := some { ask := 3/2, bid := 3/2 },
          limitSend := some srDone }).log.countP Ev.isMarketCall = 1 ∧
    (processSingleExecution
        { status := ExecState.pending, symbol := some "EURUSD", side := some "buy",
          volume := 1/10, entry_price := some (11/10) }
        { symbol := some "EURUSD", signal_type := some "buy", confidence_score := 1 }
        none
        { mt5_password := some "pw", connectOk := true,
          symbolInfo := some { ask := 3/2, bid := 3/2 },
          limitSend := some srDone }).log.countP Ev.isLimitCall = 1 :=
  (market_to_limit_fallback
    { status := ExecState.pending, symbol := some "EURUSD", side := some "buy",
      volume := 1/10, entry_price := some (11/10) }
    { symbol := some "EURUSD", signal_type := some "buy", confidence_score := 1 }
    none
    { mt5_password := some "pw", connectOk := true,
      symbolInfo := some { ask := 3/2, bid := 3/2 },
      limitSend := some srDone }
    (11/10)
    (by with_unfolding_all decide) rfl rfl rfl
    (by with_unfolding_all decide)).1
    (by with_unfolding_all decide) (by with_unfolding_all decide)

/-- Claim C7 (confirmed): a synchronizer pass transitions only
executions in state EXECUTED; for an EXECUTED execution whose ticket is
absent from the broker's open positions, a returned historical deal
closes it with `close_price = deal.price`, `profit_loss = deal.profit`,
`close_time = deal.time` and a `position_closed` event, and the absence
of any deal leaves it unchanged. -/
theorem sync_only_executed_and_closure (credsOk connectOk : Bool)
    (openPos : List BrokerPosition) (history : ℕ → List Deal)
    (db : List TradeExecution) :
    List.Forall₂ (fun (ex : TradeExecution) (res : TradeExecution × List SyncEv) =>
      (ex.status ≠ ExecState.executed → res = (ex, [])) ∧
      (ex.status = ExecState.executed → credsOk = true → connectOk = true →
        ∀ t, ex.ticket_number = some t → t ≠ 0 →
          (∀ bp ∈ openPos, bp.ticket ≠ t) →
          ((getHistoryDeals (history t) = none → res = (ex, [])) ∧
           (∀ d, getHistoryDeals (history t) = some d →
              res = ({ ex with
                       status := ExecState.closed
                       profit_loss := some d.profit
                       close_price := some d.price
                       close_time := some d.time },
                     [SyncEv.positionClosed t d.profit d.price])))))
      db (syncAllActivePositions credsOk connectOk openPos history db) := by
  unfold syncAllActivePositions
  rw [List.forall₂_map_right_iff]
  rw [List.forall₂_same]
  intro ex _
  constructor
  · intro hne
    rw [if_neg (by simp [hne])]
  · intro hex hc hn t ht htz hopen
    rw [if_pos ⟨hex, hc, hn⟩]
    unfold syncStep
    have htruthy : truthyN ex.ticket_number = true := by
      rw [ht]; simp [truthyN, htz]
    rw [if_neg (by simp [htruthy])]
    have hgetD : ex.ticket_number.getD 0 = t := by rw [ht]; rfl
    rw [hgetD]
    dsimp only
    have hfind : openPos.reverse.find? (fun bp => bp.ticket = t) = none := by
      rw [List.find?_eq_none]
      intro bp hbp
      simp [hopen bp (List.mem_reverse.mp hbp)]
    rw [hfind]
    constructor
    · intro hdeal
      rw [hdeal]
    · intro d hdeal
      rw [hdeal]

/-- Witness for `sync_only_executed_and_closure`: scenario 6 — an
EXECUTED row with ticket 5 absent from open positions and a closing
deal (profit 42.5, price 1.123) moves to CLOSED; a PENDING row is left
alone. -/
theorem sync_only_executed_and_closure_witness :
    List.Forall₂ (fun (ex : TradeExecution) (res : TradeExecution × List SyncEv) =>
      (ex.status ≠ ExecState.executed → res = (ex, [])) ∧
      (ex.status = ExecState.executed → true = true → true = true →
        ∀ t, ex.ticket_number = some t → t ≠ 0 →
          (∀ bp ∈ ([] : List BrokerPosition), bp.ticket ≠ t) →
          ((getHistoryDeals
              ((fun _ => [{ entry := 1, price := 1123/1000, profit := 85/2, time := 100 }]) t) = none → res = (ex, [])) ∧
           (∀ d, getHistoryDeals
              ((fun _ => [{ entry := 1, price := 1123/1000, profit := 85/2, time := 100 }]) t) = some d →
              res = ({ ex with
                       status := ExecState.closed
                       profit_loss := some d.profit
                       close_price := some d.price
                       close_time := some d.time },
                     [SyncEv.positionClosed t d.profit d.price])))))
      [{ status := ExecState.executed, ticket_number := some 5 },
       { status := ExecState.pending, ticket_number := some 6 }]
      (syncAllActivePositions true true []
        (fun _ => [{ entry := 1, price := 1123/1000, profit := 85/2, time := 100 }])
        [{ status := ExecState.executed, ticket_number := some 5 },
         { status := ExecState.pending, ticket_number := some 6 }]) :=
  sync_only_executed_and_closure true true []
    (fun _ => [{ entry := 1, price := 1123/1000, profit := 85/2, time := 100 }])
    [{ status := ExecState.executed, ticket_number := some 5 },
     { status := ExecState.pending, ticket_number := some 6 }]

end TGBot
